import Mathlib

/-!
Verification of the PSX stock-scraper repository's extraction and
normalization pipeline, shallowly embedded in Lean 4.

The embedding models, faithfully to the Python source:
* `clean_value` (stock_scrapper.py, lines 18-41): the value normalizer
  used by the table/payout extractors;
* `extract_numeric` (stock_scapper.py, lines 11-23): the regex-based
  numeric extractor of the variant scraper;
* the statement-table extractor of `scrape_financial_data`
  (stock_scrapper.py, lines 119-147);
* the payout-table extractor of `scrape_payout_data`
  (stock_scrapper.py, lines 153-200);
* the snapshot field-map extractor `scrape_company_snapshot`
  (stock_scrapper.py, lines 43-93);
* the orchestrator `scrape_company_data` (stock_scrapper.py,
  lines 202-250) and the symbol validation of `scrape_stock_data`
  (stock_scapper.py, lines 25-40).

Python numbers are modelled as rationals (`ℚ`); Python's `int 0` and
`float 0.0` compare equal in Python and are identified here.  Code that
can raise is modelled in `Except Unit`.
-/

namespace PSX

/-- A Python value as it appears in the pipeline: a number (int/float
identified, as Python's `==` does), a string, or the None/NaN padding
marker produced by DataFrame construction from ragged rows. -/
inductive PyVal where
  | num (q : ℚ)
  | str (s : String)
  | nan
deriving DecidableEq, Repr

/-- Python `str.strip()` on a list of characters: drop leading and
trailing whitespace.  (Python strips Unicode whitespace; the scraped
tokens only contain ASCII whitespace, which `Char.isWhitespace`
covers.) -/
def pyStrip (cs : List Char) : List Char :=
  ((cs.dropWhile Char.isWhitespace).reverse.dropWhile Char.isWhitespace).reverse

/-- Python `s.strip()` on strings. -/
def pyStripStr (s : String) : String := ⟨pyStrip s.data⟩

/-- `value.replace(',', '').replace('%', '')`: removing all commas and
then all percent signs equals filtering both characters out. -/
def removeCommasPct (s : String) : String :=
  ⟨s.data.filter (fun c => c != ',' && c != '%')⟩

/-- Python `c in value` for a single character: membership in the
string's characters. -/
def containsChar (c : Char) (s : String) : Bool :=
  s.data.contains c

/-- `value.replace(c, '')`: remove every occurrence of one character. -/
def removeAll (c : Char) (s : String) : String :=
  ⟨s.data.filter (fun d => d != c)⟩

/-- Value of a list of decimal digit characters, most significant
first. -/
def digitsToNat (cs : List Char) : ℕ :=
  cs.foldl (fun a c => 10 * a + (c.toNat - 48)) 0

/-- Core of Python's `float()` builtin on a fixed-point decimal literal
without sign: digits, an optional dot, digits — at least one digit in
total.  Exponent (`1e5`), `inf`/`nan`, and underscore forms never occur
in the scraped tokens and are outside the modelled domain. -/
def pyFloatCore (cs : List Char) : Option ℚ :=
  let d1 := cs.takeWhile Char.isDigit
  let r1 := cs.dropWhile Char.isDigit
  if r1.isEmpty then
    if d1.isEmpty then none else some (digitsToNat d1)
  else if r1.head? = some '.' then
    let d2 := r1.tail.takeWhile Char.isDigit
    let r3 := r1.tail.dropWhile Char.isDigit
    if r3.isEmpty then
      if d1.isEmpty && d2.isEmpty then none
      else some ((digitsToNat d1 : ℚ) + (digitsToNat d2 : ℚ) / (10 : ℚ) ^ d2.length)
    else none
  else none

/-- Python `float()` with an optional leading sign. -/
def pyFloatSigned (cs : List Char) : Option ℚ :=
  if cs.head? = some '-' then (pyFloatCore cs.tail).map (fun q => -q)
  else if cs.head? = some '+' then pyFloatCore cs.tail
  else pyFloatCore cs

/-- Python `float(s)` on a string, returning `none` where Python raises
`ValueError`.  `float` ignores surrounding whitespace. -/
def pyFloat? (s : String) : Option ℚ :=
  pyFloatSigned (pyStrip s.data)

/-- `clean_value` (stock_scrapper.py, lines 18-41), on string input.
Line by line:
* `value = value.strip()`;
* `if value == '-' or value == '': return 0`;
* `value = value.replace(',', '').replace('%', '')`;
* `if 'K' in value: return float(value.replace('K', '')) * 1000`
  (and similarly `M` → 1e6, `B` → 1e9, tested in that order, the
  letter matched anywhere in the string, all its occurrences removed);
* `try: return float(value) except ValueError: return value`.
A failing `float()` inside the `K`/`M`/`B` branches is uncaught and
raises `ValueError`, modelled as `Except.error ()`. -/
def clean_value (s : String) : Except Unit PyVal :=
  let v := pyStripStr s
  if v = "-" || v = "" then .ok (.num 0)
  else
    let v := removeCommasPct v
    if containsChar 'K' v then
      match pyFloat? (removeAll 'K' v) with
      | some q => .ok (.num (q * 1000))
      | none => .error ()
    else if containsChar 'M' v then
      match pyFloat? (removeAll 'M' v) with
      | some q => .ok (.num (q * 1000000))
      | none => .error ()
    else if containsChar 'B' v then
      match pyFloat? (removeAll 'B' v) with
      | some q => .ok (.num (q * 1000000000))
      | none => .error ()
    else
      match pyFloat? v with
      | some q => .ok (.num q)
      | none => .ok (.str v)

/-- `clean_value` applied to an arbitrary Python value: the
`isinstance(value, str)` guard returns non-strings unchanged. -/
def clean_value_pv : PyVal → Except Unit PyVal
  | .str s => clean_value s
  | v => .ok v

/-! ### The regex `-?\d*\.?\d+` of `extract_numeric`

`numBody` matches `\d*\.?\d+` at the head of the input following
Python's greedy-with-backtracking semantics; `tryMatch` adds the
optional sign.  Both return the matched characters and the rest of the
input. -/

/-- Match `\d*\.?\d+` at the start of `cs` (Python `re` semantics:
greedy quantifiers with backtracking).  E.g. on `"57."` the match is
`"57"`; on `".5x"` it is `".5"`; on `"."` there is no match. -/
def numBody (cs : List Char) : Option (List Char × List Char) :=
  let d1 := cs.takeWhile Char.isDigit
  let r1 := cs.dropWhile Char.isDigit
  if r1.head? = some '.' then
    let d2 := r1.tail.takeWhile Char.isDigit
    let r3 := r1.tail.dropWhile Char.isDigit
    if d2.isEmpty then
      if d1.isEmpty then none else some (d1, r1)
    else some (d1 ++ '.' :: d2, r3)
  else if d1.isEmpty then none else some (d1, r1)

/-- Match `-?\d*\.?\d+` at the start of `cs`.  When a leading `-` is
present but no number body follows it, backtracking over `-?` cannot
rescue the match (the body cannot start at `'-'`), so the position
fails. -/
def tryMatch (cs : List Char) : Option (List Char × List Char) :=
  if cs.head? = some '-' then (numBody cs.tail).map (fun p => ('-' :: p.1, p.2))
  else numBody cs

/-- `re.findall(r'-?\d*\.?\d+', ·)`: scan left to right, emit each
non-overlapping match, resume after it.  Fuel-driven recursion; every
match consumes at least one character, so fuel `cs.length` never runs
out. -/
def findallAux : ℕ → List Char → List (List Char)
  | 0, _ => []
  | _ + 1, [] => []
  | fuel + 1, c :: rest =>
    match tryMatch (c :: rest) with
    | some (m, r) => m :: findallAux fuel r
    | none => findallAux fuel rest

/-- `re.findall(r'-?\d*\.?\d+', s)`. -/
def findallNums (s : String) : List (List Char) :=
  findallAux s.data.length s.data

/-- `extract_numeric` (stock_scapper.py, lines 11-23).  Line by line:
* `if pd.isna(value) or value == '': return None` — `pd.isna` is
  `False` for every string, so only the empty check remains;
* `value = str(value).replace(',', '').replace('%', '')`;
* `numbers = re.findall(r'-?\d*\.?\d+', value)`;
* `if numbers: try: return float(numbers[0]) except ValueError: return None`;
* `return None`. -/
def extract_numeric (s : String) : Option ℚ :=
  if s = "" then none
  else
    match findallNums (removeCommasPct s) with
    | [] => none
    | n :: _ => pyFloat? (String.mk n)

/-! ### DataFrame construction

`pd.DataFrame(rows, columns=headers)` on a list of row lists: pandas
first forms an object array whose width is the longest row's length,
padding shorter rows with the missing-value marker, then checks that
this width equals `len(columns)` and raises `ValueError` otherwise.
An empty row list always succeeds. -/

/-- `pd.DataFrame(rows, columns)` with `ncols = len(columns)`: error
when the widest row's length differs from `ncols` (pandas
`ValueError: n columns passed, passed data had m columns`); otherwise
the rows, shorter ones padded with the missing marker. -/
def mkFrame (rows : List (List PyVal)) (ncols : ℕ) : Except Unit (List (List PyVal)) :=
  if rows.isEmpty then .ok []
  else if (rows.map List.length).foldl max 0 = ncols then
    .ok (rows.map (fun r => r ++ List.replicate (ncols - r.length) .nan))
  else .error ()

/-! ### Statement-table extraction (`scrape_financial_data`, lines 126-147) -/

/-- One table cell: whether it is a `<th>` (as opposed to `<td>`), and
its text. -/
structure Cell where
  isTh : Bool
  text : String
deriving DecidableEq, Repr

/-- One `<tr>`: its cells in document order. -/
structure Tr where
  cells : List Cell
deriving DecidableEq, Repr

/-- One `<table>`: its `<tr>` rows in document order. -/
structure HTable where
  trs : List Tr
deriving DecidableEq, Repr

/-- Effectful map over `Except`, short-circuiting at the first error —
the semantics of a Python comprehension or `Series.apply` in which an
element may raise. -/
def mapME (f : α → Except Unit β) : List α → Except Unit (List β)
  | [] => .ok []
  | a :: as => do
    let b ← f a
    let bs ← mapME f as
    .ok (b :: bs)

/-- One data row (lines 136-139): `cells = tr.find_all(['td','th'])`,
`row = [cells[0].text.strip()]` then
`row.extend([clean_value(cell.text.strip()) for cell in cells[1:]])`.
A `ValueError` raised by `clean_value` propagates. -/
def buildRow (c0 : Cell) (cs : List Cell) : Except Unit (List PyVal) := do
  let vals ← mapME (fun c => clean_value (pyStripStr c.text)) cs
  .ok (PyVal.str (pyStripStr c0.text) :: vals)

/-- The row loop (lines 134-141): skip rows with no cells, build each
remaining row, keep it only if its length equals the header length. -/
def buildRows (n : ℕ) : List Tr → Except Unit (List (List PyVal))
  | [] => .ok []
  | ⟨[]⟩ :: rest => buildRows n rest
  | ⟨c0 :: cs⟩ :: rest => do
    let row ← buildRow c0 cs
    let rs ← buildRows n rest
    if row.length = n then .ok (row :: rs) else .ok rs

/-- Line 131: `['Metric'] + [th.text.strip() for th in
table.find('tr').find_all('th')[1:]]` — the `<th>` cells of the first
row, minus the first, stripped, prefixed by the synthetic `"Metric"`
name. -/
def tabHeaders (hr : Tr) : List String :=
  "Metric" :: ((hr.cells.filter (·.isTh)).drop 1).map (fun c => pyStripStr c.text)

/-- Processing one tab's table (lines 129-146): headers from the `<th>`
cells of the first `<tr>` minus the first, prefixed with `"Metric"`;
data rows from the remaining `<tr>`s; then the DataFrame build.  A
table with no `<tr>` at all makes `table.find('tr')` return `None` and
line 131 raise `AttributeError`, modelled as the error case. -/
def processTab : HTable → Except Unit (List String × List (List PyVal))
  | ⟨[]⟩ => .error ()
  | ⟨hr :: rest⟩ => do
    let rows ← buildRows (tabHeaders hr).length rest
    let df ← mkFrame rows (tabHeaders hr).length
    .ok (tabHeaders hr, df)

/-! ### Payout-table extraction (`scrape_payout_data`, lines 168-196) -/

/-- The `company-payouts` table: the `<th>` texts of its `<thead>` and,
per `<tbody>` row, the `<td>` texts. -/
structure PayoutTable where
  headTh : List String
  bodyTrs : List (List String)
deriving DecidableEq, Repr

/-- Truthiness of a Python value: `''` and `0` are falsy; NaN is
truthy. -/
def pyTruthy : PyVal → Bool
  | .str s => s ≠ ""
  | .num q => q ≠ 0
  | .nan => true

/-- The per-cell conversion of line 191:
`lambda x: clean_value(x) if x else 0`. -/
def convertCell (v : PyVal) : Except Unit PyVal :=
  if pyTruthy v then clean_value_pv v else .ok (.num 0)

/-- Apply `convertCell` to entry `i` of a row (`df[col] = df[col].apply(...)`
acting on one row). -/
def convertRowAt : ℕ → List PyVal → Except Unit (List PyVal)
  | _, [] => .ok []
  | 0, v :: vs => do
    let w ← convertCell v
    .ok (w :: vs)
  | n + 1, v :: vs => do
    let ws ← convertRowAt n vs
    .ok (v :: ws)

/-- Lines 189-191: `if col in df.columns: df[col] = df[col].apply(...)`,
where `df[col]` addresses the column at the header's index. -/
def applyNumericCol (col : String) (headers : List String) (rows : List (List PyVal)) :
    Except Unit (List (List PyVal)) :=
  if headers.contains col then mapME (convertRowAt (headers.indexOf col)) rows
  else .ok rows

/-- `scrape_payout_data`'s table processing (lines 173-195): header
texts stripped; every `<tbody>` row appended unconditionally (no length
filter); DataFrame build; then the numeric conversion of the
`Payout %` and `Face Value` columns, in that order. -/
def scrape_payout (t : PayoutTable) : Except Unit (List String × List (List PyVal)) := do
  let headers := t.headTh.map pyStripStr
  let rows := t.bodyTrs.map (fun r => r.map (fun c => PyVal.str (pyStripStr c)))
  let df ← mkFrame rows headers.length
  let df ← applyNumericCol "Payout %" headers df
  let df ← applyNumericCol "Face Value" headers df
  .ok (headers, df)

/-! ### Snapshot field-map extraction (`scrape_company_snapshot`, lines 43-93)

The snapshot panel is modelled as the sequence, in document order, of
its `<strong>` tags.  For each tag we record its `title` attribute
(absent or its string) and what
`tag.find_next('br').next_sibling` yields: `none` when the tag has no
following `<br>`; `some none` when the `<br>`'s next sibling is absent
or not a text node (so `.strip()` raises `AttributeError`);
`some (some s)` when it is the text `s`. -/

/-- A `<strong>` tag of the snapshot panel. -/
structure StrongTag where
  title : Option String
  brSib : Option (Option String)
deriving DecidableEq, Repr

/-- The snapshot panel: its `<strong>` tags in document order. -/
structure Panel where
  strongs : List StrongTag
deriving DecidableEq, Repr

/-- Character-list prefix test. -/
def listPrefixOf : List Char → List Char → Bool
  | [], _ => true
  | _ :: _, [] => false
  | a :: as, b :: bs => a == b && listPrefixOf as bs

/-- Character-list infix test: `pat` occurs contiguously in the text. -/
def listInfixOf (pat : List Char) : List Char → Bool
  | [] => pat.isEmpty
  | b :: bs => listPrefixOf pat (b :: bs) || listInfixOf pat bs

/-- Python `t in s` on strings: `t` is a contiguous substring of `s`. -/
def substrB (t s : String) : Bool :=
  listInfixOf t.data s.data

/-- The predicate of line 84, `title=lambda x: x and title in x`: the
attribute must be present, non-empty, and contain the label. -/
def titleMatches (label : String) (t : StrongTag) : Bool :=
  match t.title with
  | none => false
  | some s => s ≠ "" && substrB label s

/-- `snapshot_table.find('strong', title=...)`: first matching
`<strong>` in document order. -/
def findStrong (panel : Panel) (label : String) : Option StrongTag :=
  panel.strongs.find? (titleMatches label)

/-- Lines 84-87 for one `(title, key)` pair: no matching tag, or a tag
without a following `<br>`, contributes nothing; a `<br>` whose next
sibling is not text raises; otherwise the stripped sibling text is
passed through `clean_value` and stored under `key`. -/
def procField (panel : Panel) (label key : String) :
    Except Unit (Option (String × PyVal)) :=
  match findStrong panel label with
  | none => .ok none
  | some t =>
    match t.brSib with
    | none => .ok none
    | some none => .error ()
    | some (some v) => (clean_value (pyStripStr v)).map (fun cv => some (key, cv))

/-- The field loop of lines 83-87 over a label→key list, building the
`snapshot_data` record in insertion order. -/
def extractFields (panel : Panel) : List (String × String) → Except Unit (List (String × PyVal))
  | [] => .ok []
  | (label, key) :: rest => do
    let h ← procField panel label key
    let r ← extractFields panel rest
    match h with
    | none => .ok r
    | some p => .ok (p :: r)

/-- The `fields` mapping of lines 55-80, in source order. -/
def snapshotFields : List (String × String) :=
  [("Current Price", "Current"), ("Volume", "Volume"), ("Dividend", "Dividend"),
   ("Dividend Yield", "Dividend_Yield"), ("Price to Earnings Ratio", "PE_Ratio"),
   ("Earning per Share", "EPS"), ("Book Value", "Book_Value"),
   ("Price to Book", "PB_Ratio"), ("Market Cap", "Market_Cap"),
   ("Debt to Equity", "Debt_to_Equity"), ("Net Profit Margin", "Net_Profit_Margin"),
   ("Gross Profit Margin", "Gross_Profit_Margin"), ("Current Ratio", "Current_Ratio"),
   ("Shares", "Shares"), ("FreeFloat", "Free_Float"),
   ("Free Float %", "Free_Float_Percent"), ("Equity to Asset", "Equity_to_Asset"),
   ("Interest", "Interest_Cover"), ("Beta", "Beta"),
   ("Upper/Lower Cap", "Upper_Lower_Cap"), ("52 Week High", "52W_High"),
   ("52 Week Low", "52W_Low"), ("High", "High"), ("Low", "Low")]

/-- `scrape_company_snapshot` (lines 43-93): when
`soup.find('div', {'class': 'company_snapshot_content'})` returns
`None` the function logs a warning and returns the empty dict (line
50-52); otherwise it runs the field loop. -/
def scrape_company_snapshotE : Option Panel → Except Unit (List (String × PyVal))
  | none => .ok []
  | some p => extractFields p snapshotFields

/-! ### Symbol validation (`scrape_stock_data`, stock_scapper.py lines 25-40) -/

/-- Python `str.upper()`, restricted to ASCII (the only characters the
validation below can accept anyway). -/
def pyUpper (s : String) : String := ⟨s.data.map Char.toUpper⟩

/-- `re.match("^[A-Z]+$", s)` as a Bool: non-empty and every character
an ASCII capital (codepoints 65-90). -/
def matchAZ (s : String) : Bool :=
  !s.data.isEmpty && s.data.all (fun c => 65 ≤ c.toNat && c.toNat ≤ 90)

/-- An ASCII letter (codepoints 65-90 or 97-122) — the "letters" of the
validation claim. -/
def isAsciiLetter (c : Char) : Bool :=
  (65 ≤ c.toNat && c.toNat ≤ 90) || (97 ≤ c.toNat && c.toNat ≤ 122)

/-- Lines 28-33 of stock_scapper.py:
`if not isinstance(symbol, str) or not symbol.strip(): raise ValueError`;
`symbol = symbol.strip().upper()`;
`if not re.match("^[A-Z]+$", symbol): raise ValueError`.
Returns the normalized symbol, or error where the code raises. -/
def validate_symbol (s : String) : Except Unit String :=
  if pyStripStr s = "" then .error ()
  else
    let u := pyUpper (pyStripStr s)
    if matchAZ u then .ok u else .error ()

/-- The company-page URL `f"https://sarmaaya.pk/psx/company/{symbol}"`. -/
def companyUrl (symbol : String) : String :=
  "https://sarmaaya.pk/psx/company/" ++ symbol

/-- `f"{base_url}/ajax/widgets/all_financials.php?symbol={symbol}"`. -/
def financialUrl (symbol : String) : String :=
  "https://sarmaaya.pk/ajax/widgets/all_financials.php?symbol=" ++ symbol

/-- `f"{base_url}/ajax/widgets/company_payouts.php?symbol={symbol}"`. -/
def payoutUrl (symbol : String) : String :=
  "https://sarmaaya.pk/ajax/widgets/company_payouts.php?symbol=" ++ symbol

/-- `scrape_stock_data`'s requests: validation happens before
`requests.get`, so an invalid symbol issues no request; a valid one
requests the company page for the normalized symbol (line 35, 39). -/
def stock_data_requests (s : String) : List String :=
  match validate_symbol s with
  | .error _ => []
  | .ok u => [companyUrl u]

/-! ### Orchestration (`scrape_company_data`, stock_scrapper.py lines 202-250)

Network I/O is abstracted as a `FetchResult` per endpoint: either the
parsed content of the response, or a `requests.RequestException`
(connection failure, and — for the company page, which calls
`raise_for_status()` — a non-2xx status). -/

/-- Outcome of one HTTP fetch. -/
inductive FetchResult (α : Type) where
  | ok (a : α)
  | netErr
deriving DecidableEq, Repr

/-- The `all_financials` fragment: per tab id of `tab_mapping` (in
order `nav-statement`, `nav-balance`, `nav-cash`, `nav-ratioFinance`,
`nav-equity`), `none` when `soup.find('div', {'id': tab_id})` finds
nothing, `some none` when the tab div has no `<table>`, and
`some (some t)` for its table. -/
structure FinPage where
  tabs : List (Option (Option HTable))
deriving DecidableEq, Repr

/-- The five output file names of `tab_mapping` (lines 110-116). -/
def tabFiles : List String :=
  ["income_statement.csv", "balance_sheet.csv", "cash_flow.csv",
   "financial_ratios.csv", "equity.csv"]

/-- Category-scoped failure kinds: a `requests.RequestException` or any
other exception. -/
inductive Err where
  | net
  | other
deriving DecidableEq, Repr

/-- The tab loop of lines 119-147: a missing tab div logs a warning and
continues (line 122-124); a tab without a table writes nothing; a
present table is processed and its CSV written immediately, and any
exception aborts the loop (the surrounding `try` re-raises).  Returns
the files written and the terminating error, if any. -/
def runTabs : List (Option (Option HTable)) → List String → List String × Option Err
  | [], _ => ([], none)
  | _, [] => ([], none)
  | none :: ts, _ :: fs => runTabs ts fs
  | some none :: ts, _ :: fs => runTabs ts fs
  | some (some t) :: ts, f :: fs =>
    match processTab t with
    | .error _ => ([], some .other)
    | .ok _ =>
      let (as, e) := runTabs ts fs
      (f :: as, e)

/-- `scrape_financial_data` (lines 95-151): a failing `requests.get`
raises `RequestException` (re-raised by its handler); otherwise the tab
loop runs.  The files written before a failure stay written. -/
def runFinancial : FetchResult FinPage → List String × Option Err
  | .netErr => ([], some .net)
  | .ok p => runTabs p.tabs tabFiles

/-- `scrape_payout_data` (lines 153-200): network failure re-raised; a
missing `company-payouts` table logs a warning and returns without an
artifact (lines 168-171); otherwise the table is processed and
`payouts.csv` written, any exception re-raised. -/
def runPayout : FetchResult (Option PayoutTable) → List String × Option Err
  | .netErr => ([], some .net)
  | .ok none => ([], none)
  | .ok (some t) =>
    match scrape_payout t with
    | .error _ => ([], some .other)
    | .ok _ => (["payouts.csv"], none)

/-- Abstracted responses of the three endpoints for one run. -/
structure Env where
  company : FetchResult (Option Panel)
  fin : FetchResult FinPage
  pay : FetchResult (Option PayoutTable)
deriving DecidableEq, Repr

/-- How `scrape_company_data` terminates: normally; by swallowing a
`requests.RequestException` in its `except` (logged, not re-raised,
lines 244-246); or by re-raising another exception (lines 247-250). -/
inductive RunOutcome where
  | completed
  | swallowedNet
  | raised
deriving DecidableEq, Repr

/-- Observable behavior of one `scrape_company_data` run: the URLs
requested, the artifact files written, and how the run ended. -/
structure RunTrace where
  requests : List String
  artifacts : List String
  outcome : RunOutcome
deriving DecidableEq, Repr

/-- `scrape_company_data` (lines 202-250).  Control flow:
* request the company page (line 222); `raise_for_status` failure or a
  connection error is a `RequestException`, caught and swallowed at
  line 244 — nothing else runs;
* `scrape_company_snapshot` (line 228); an exception there re-raises
  (line 250) before any artifact is written;
* the snapshot CSV is written unconditionally, even for an empty
  snapshot dict (lines 233-236);
* `scrape_financial_data(financial_url)` (line 239); a
  `RequestException` from it is swallowed at line 244, any other
  re-raised at line 250 — in both cases `scrape_payout_data` never
  runs;
* `scrape_payout_data(payout_url)` (line 240), with the same handler
  split. -/
def scrape_company_data (symbol : String) (env : Env) : RunTrace :=
  let cu := companyUrl symbol
  match env.company with
  | .netErr => ⟨[cu], [], .swallowedNet⟩
  | .ok panel =>
    match scrape_company_snapshotE panel with
    | .error _ => ⟨[cu], [], .raised⟩
    | .ok _ =>
      let (fa, ferr) := runFinancial env.fin
      let reqs := [cu, financialUrl symbol]
      let arts := "company_snapshot.csv" :: fa
      match ferr with
      | some .net => ⟨reqs, arts, .swallowedNet⟩
      | some .other => ⟨reqs, arts, .raised⟩
      | none =>
        let (pa, perr) := runPayout env.pay
        let reqs := reqs ++ [payoutUrl symbol]
        let arts := arts ++ pa
        match perr with
        | some .net => ⟨reqs, arts, .swallowedNet⟩
        | some .other => ⟨reqs, arts, .raised⟩
        | none => ⟨reqs, arts, .completed⟩

/-! ## Claims about the value normalizer (C1, C2, C3) -/

/-- **C1, counterexample.**  `clean_value` is not "number or absent":
on `"N/A"` it returns the input string itself (a non-numeric result),
and on `"K"` the inner `float('')` of the `K` branch raises
`ValueError` — the claimed totality fails on the code. -/
theorem c1_counterexample :
    clean_value "N/A" = .ok (.str "N/A") ∧ clean_value "K" = .error () :=
  ⟨rfl, rfl⟩

/-- **C1, amended.**  `clean_value` terminates on every string but is
neither exception-free nor numeric-or-absent: it raises `ValueError`
exactly when the trimmed token is not `-`/empty and its
comma/percent-stripped form contains a scale letter (`K` tested first,
then `M`, then `B`) whose removal leaves a non-float; and whenever it
returns a string, that string is the comma/percent-stripped token,
which failed the float parse and contains no scale letter. -/
theorem c1_clean_value_characterization :
    ∀ s v, v = removeCommasPct (pyStripStr s) →
      ((clean_value s = .error () ↔
        (¬pyStripStr s = "-" ∧ ¬pyStripStr s = "" ∧
          ((containsChar 'K' v = true ∧ pyFloat? (removeAll 'K' v) = none) ∨
           (containsChar 'K' v = false ∧ containsChar 'M' v = true ∧
             pyFloat? (removeAll 'M' v) = none) ∨
           (containsChar 'K' v = false ∧ containsChar 'M' v = false ∧ containsChar 'B' v = true ∧
             pyFloat? (removeAll 'B' v) = none)))) ∧
      (∀ t, clean_value s = .ok (.str t) →
        t = v ∧ pyFloat? v = none ∧ containsChar 'K' v = false ∧ containsChar 'M' v = false ∧
          containsChar 'B' v = false)) := by
  intro s v hv
  subst hv
  by_cases hd : pyStripStr s = "-"
  · simp [clean_value, hd]
  by_cases he : pyStripStr s = ""
  · simp [clean_value, he]
  by_cases hK : containsChar 'K' (removeCommasPct (pyStripStr s))
  · cases hfK : pyFloat? (removeAll 'K' (removeCommasPct (pyStripStr s))) with
    | none => simp [clean_value, hd, he, hK, hfK]
    | some q => simp [clean_value, hd, he, hK, hfK]
  · by_cases hM : containsChar 'M' (removeCommasPct (pyStripStr s))
    · cases hfM : pyFloat? (removeAll 'M' (removeCommasPct (pyStripStr s))) with
      | none => simp [clean_value, hd, he, hK, hM, hfM]
      | some q => simp [clean_value, hd, he, hK, hM, hfM]
    · by_cases hB : containsChar 'B' (removeCommasPct (pyStripStr s))
      · cases hfB : pyFloat? (removeAll 'B' (removeCommasPct (pyStripStr s))) with
        | none => simp [clean_value, hd, he, hK, hM, hB, hfB]
        | some q => simp [clean_value, hd, he, hK, hM, hB, hfB]
      · cases hf : pyFloat? (removeCommasPct (pyStripStr s)) with
        | none => simp [clean_value, hd, he, hK, hM, hB, hf]
        | some q => simp [clean_value, hd, he, hK, hM, hB, hf]

/-- **C1, witness.** -/
theorem c1_witness :
    "abc" = removeCommasPct (pyStripStr "abc") ∧
      pyFloat? (removeCommasPct (pyStripStr "abc")) = none ∧
      containsChar 'K' (removeCommasPct (pyStripStr "abc")) = false ∧
      containsChar 'M' (removeCommasPct (pyStripStr "abc")) = false ∧
      containsChar 'B' (removeCommasPct (pyStripStr "abc")) = false :=
  (c1_clean_value_characterization "abc" _ rfl).2 "abc" rfl

/-- **C2, counterexample.**  `clean_value` maps a lone `-` and the
empty string to the number `0`, not to an absent marker, and the payout
numeric conversion therefore stores `0` for a `"-"` cell: the claim
"not zero" is false on the code. -/
theorem c2_counterexample :
    clean_value "-" = .ok (.num 0) ∧ clean_value "" = .ok (.num 0) ∧
      convertCell (.str "-") = .ok (.num 0) :=
  ⟨rfl, rfl, rfl⟩

/-- **C2, amended.**  A string that trims to a lone `-` or to empty is
mapped by `clean_value` to the number zero — not absent, not an
error — and a payout cell `"-"` (truthy, hence fed to `clean_value`)
becomes `0` in the converted column. -/
theorem c2_dash_empty_to_zero :
    (∀ s : String, pyStripStr s = "-" ∨ pyStripStr s = "" →
      clean_value s = .ok (.num 0)) ∧
    convertCell (.str "-") = .ok (.num 0) := by
  refine ⟨fun s h => ?_, rfl⟩
  rcases h with h | h <;> simp [clean_value, h]

/-- **C2, witness.** -/
theorem c2_witness : clean_value " - " = .ok (.num 0) :=
  c2_dash_empty_to_zero.1 " - " (Or.inl (by decide))

/-- **C3, counterexample.**  The scale letter is honoured anywhere in
the token, not only as a terminal suffix: in `"K5"` the `K` is the
leading character, the terminal character is the digit `5`, and yet
`clean_value` multiplies by 1000. -/
theorem c3_counterexample : clean_value "K5" = .ok (.num 5000) := by
  have h : clean_value "K5" = .ok (.num ((5 : ℚ) * 1000)) := rfl
  rw [h]
  norm_num

/-- **C3, amended.**  `clean_value` recognizes a scale letter `K`, `M`,
or `B` (case-sensitive, tested in that order) occurring *anywhere* in
the comma/percent-stripped token, removes every occurrence of it, and
multiplies the float parse of the remainder by 1e3/1e6/1e9 (raising
`ValueError` if the remainder is not a float); the three quoted
examples hold. -/
theorem c3_scale_letter_characterization :
    (∀ s v, v = removeCommasPct (pyStripStr s) →
      ¬pyStripStr s = "-" → ¬pyStripStr s = "" →
      ((containsChar 'K' v = true →
         clean_value s = match pyFloat? (removeAll 'K' v) with
           | some q => .ok (.num (q * 1000))
           | none => .error ()) ∧
       (containsChar 'K' v = false → containsChar 'M' v = true →
         clean_value s = match pyFloat? (removeAll 'M' v) with
           | some q => .ok (.num (q * 1000000))
           | none => .error ()) ∧
       (containsChar 'K' v = false → containsChar 'M' v = false → containsChar 'B' v = true →
         clean_value s = match pyFloat? (removeAll 'B' v) with
           | some q => .ok (.num (q * 1000000000))
           | none => .error ()))) ∧
    clean_value "147.00 B" = .ok (.num 147000000000) ∧
    clean_value "1.26 K" = .ok (.num 1260) ∧
    clean_value "12.5%" = .ok (.num (25 / 2)) := by
  have e1 : clean_value "147.00 B" =
      .ok (.num (((147 : ℚ) + (0 : ℚ) / 10 ^ 2) * 1000000000)) := rfl
  have e2 : clean_value "1.26 K" = .ok (.num (((1 : ℚ) + (26 : ℚ) / 10 ^ 2) * 1000)) := rfl
  have e3 : clean_value "12.5%" = .ok (.num ((12 : ℚ) + (5 : ℚ) / 10 ^ 1)) := rfl
  refine ⟨fun s v hv hd he => ?_, by rw [e1]; norm_num, by rw [e2]; norm_num,
    by rw [e3]; norm_num⟩
  subst hv
  refine ⟨fun hK => ?_, fun hK hM => ?_, fun hK hM hB => ?_⟩
  · cases hfK : pyFloat? (removeAll 'K' (removeCommasPct (pyStripStr s))) with
    | none => simp [clean_value, hd, he, hK, hfK]
    | some q => simp [clean_value, hd, he, hK, hfK]
  · cases hfM : pyFloat? (removeAll 'M' (removeCommasPct (pyStripStr s))) with
    | none => simp [clean_value, hd, he, hK, hM, hfM]
    | some q => simp [clean_value, hd, he, hK, hM, hfM]
  · cases hfB : pyFloat? (removeAll 'B' (removeCommasPct (pyStripStr s))) with
    | none => simp [clean_value, hd, he, hK, hM, hB, hfB]
    | some q => simp [clean_value, hd, he, hK, hM, hB, hfB]

/-- **C3, witness.** -/
theorem c3_witness :
    clean_value "2K" = match pyFloat? (removeAll 'K' (removeCommasPct (pyStripStr "2K"))) with
      | some q => .ok (.num (q * 1000))
      | none => .error () :=
  (c3_scale_letter_characterization.1 "2K" _ rfl (by decide) (by decide)).1 (by decide)

/-! ## Claim C4: row-shape filtering -/

/-- Reduction of an `Except` bind whose first step succeeded. -/
theorem bind_ok_eq {α β : Type} (a : α) (f : α → Except Unit β) :
    (do let x ← Except.ok a; f x) = f a := rfl

/-- Reduction of an `Except` bind whose first step failed. -/
theorem bind_error_eq {α β : Type} (e : Unit) (f : α → Except Unit β) :
    (do let x ← (Except.error e : Except Unit α); f x) = Except.error e := rfl

/-- Rows accepted by `buildRows` all have the header length. -/
theorem buildRows_ok_shape {n : ℕ} :
    ∀ trs rs, buildRows n trs = .ok rs → ∀ r ∈ rs, r.length = n := by
  intro trs
  induction trs with
  | nil =>
    intro rs h r hr
    cases h
    simp at hr
  | cons tr rest ih =>
    intro rs h r hr
    obtain ⟨cells⟩ := tr
    cases cells with
    | nil => exact ih rs h r hr
    | cons c0 cs =>
      simp only [buildRows] at h
      cases hb : buildRow c0 cs with
      | error e => rw [hb, bind_error_eq] at h; exact Except.noConfusion h
      | ok row =>
        rw [hb, bind_ok_eq] at h
        cases hrs : buildRows n rest with
        | error e => rw [hrs, bind_error_eq] at h; exact Except.noConfusion h
        | ok rs' =>
          rw [hrs, bind_ok_eq] at h
          by_cases hl : row.length = n
          · rw [if_pos hl] at h
            cases h
            rcases List.mem_cons.mp hr with hr | hr
            · rw [hr]; exact hl
            · exact ih _ hrs r hr
          · rw [if_neg hl] at h
            cases h
            exact ih _ hrs r hr

/-- `foldl max` over a constant list. -/
theorem foldl_max_const {n : ℕ} :
    ∀ (l : List ℕ) (a : ℕ), (∀ x ∈ l, x = n) → l.foldl max (max a n) = max a n := by
  intro l
  induction l with
  | nil => intro a _; rfl
  | cons x xs ih =>
    intro a hx
    have hxn : x = n := hx x (List.mem_cons_self x xs)
    have hxs : ∀ y ∈ xs, y = n := fun y hy => hx y (List.mem_cons_of_mem x hy)
    rw [List.foldl_cons, hxn, max_assoc, max_self]
    exact ih a hxs

/-- On rows already of uniform width `n`, the DataFrame build succeeds
and returns the rows unchanged. -/
theorem mkFrame_of_uniform {n : ℕ} :
    ∀ rows, (∀ r ∈ rows, r.length = n) → mkFrame rows n = .ok rows := by
  intro rows h
  cases rows with
  | nil => rfl
  | cons a l =>
    have hmax : (((a :: l).map List.length).foldl max 0) = n := by
      have ha : a.length = n := h a (List.mem_cons_self a l)
      have hl : ∀ x ∈ l.map List.length, x = n := by
        intro x hx
        rcases List.mem_map.mp hx with ⟨r, hr, hrx⟩
        rw [← hrx]
        exact h r (List.mem_cons_of_mem a hr)
      rw [List.map_cons, List.foldl_cons, ha]
      calc (l.map List.length).foldl max (max 0 n)
          = max 0 n := foldl_max_const _ 0 hl
        _ = n := by simp
    have hpad : (a :: l).map (fun r => r ++ List.replicate (n - r.length) PyVal.nan)
        = a :: l := by
      have hid : ∀ r ∈ a :: l, r ++ List.replicate (n - r.length) PyVal.nan = id r := by
        intro r hr
        rw [h r hr, Nat.sub_self, List.replicate_zero, List.append_nil, id]
      calc (a :: l).map (fun r => r ++ List.replicate (n - r.length) PyVal.nan)
          = (a :: l).map id := List.map_congr_left hid
        _ = a :: l := List.map_id _
    rw [show mkFrame (a :: l) n =
        (if (((a :: l).map List.length).foldl max 0) = n then
          .ok ((a :: l).map (fun r => r ++ List.replicate (n - r.length) PyVal.nan))
        else .error ()) from rfl,
      if_pos hmax, hpad]

/-- An `.ok` DataFrame has one record per input row. -/
theorem mkFrame_ok_length :
    ∀ rows df n, mkFrame rows n = .ok df → df.length = rows.length := by
  intro rows df n h
  unfold mkFrame at h
  split_ifs at h with h1 h2
  · cases h
    rw [List.isEmpty_iff.mp h1]
  · cases h
    simp

/-- `mapME` preserves length on success. -/
theorem mapME_ok_length {α β : Type} {f : α → Except Unit β} :
    ∀ l out, mapME f l = .ok out → out.length = l.length := by
  intro l
  induction l with
  | nil => intro out h; cases h; rfl
  | cons a as ih =>
    intro out h
    simp only [mapME] at h
    cases hfa : f a with
    | error e => rw [hfa, bind_error_eq] at h; exact Except.noConfusion h
    | ok b =>
      rw [hfa, bind_ok_eq] at h
      cases hrec : mapME f as with
      | error e => rw [hrec, bind_error_eq] at h; exact Except.noConfusion h
      | ok bs =>
        rw [hrec, bind_ok_eq] at h
        cases h
        simp only [List.length_cons, ih bs hrec]

/-- `applyNumericCol` preserves the record count on success. -/
theorem applyNumericCol_ok_length :
    ∀ col headers rows out, applyNumericCol col headers rows = .ok out →
      out.length = rows.length := by
  intro col headers rows out h
  unfold applyNumericCol at h
  by_cases hc : headers.contains col
  · rw [if_pos hc] at h
    exact mapME_ok_length rows out h
  · rw [if_neg hc] at h
    cases h
    rfl

/-- **C4, counterexample.**  The payout extractor does not drop
mismatched rows: with a two-column header, the one-cell body row
`["5"]` still yields a Record (padded with the missing-value marker) in
the output dataset. -/
theorem c4_counterexample :
    scrape_payout ⟨["Payout %", "Year"], [["-", "2020"], ["5"]]⟩ =
      .ok (["Payout %", "Year"],
        [[PyVal.num 0, PyVal.str "2020"], [PyVal.num 5, PyVal.nan]]) ∧
    (["5"] : List String).length ≠ (["Payout %", "Year"] : List String).length := by
  exact ⟨rfl, by decide⟩

/-- **C4, amended.**  The length filter exists only in the
statement-table extractor: every Record produced by `processTab` has
exactly the Schema's column count; the payout extractor instead appends
a Record for *every* body row unconditionally (short rows are padded,
over-long rows abort the whole dataset build). -/
theorem c4_row_shape :
    (∀ t headers rows, processTab t = .ok (headers, rows) →
      ∀ r ∈ rows, r.length = headers.length) ∧
    (∀ t headers rows, scrape_payout t = .ok (headers, rows) →
      rows.length = t.bodyTrs.length) := by
  constructor
  · intro t headers rows h r hr
    obtain ⟨trs⟩ := t
    cases trs with
    | nil => exact Except.noConfusion h
    | cons hrow rest =>
      simp only [processTab] at h
      cases hbr : buildRows (tabHeaders hrow).length rest with
      | error e => rw [hbr, bind_error_eq] at h; exact Except.noConfusion h
      | ok rs =>
        rw [hbr, bind_ok_eq] at h
        have hshape := buildRows_ok_shape rest rs hbr
        rw [mkFrame_of_uniform rs hshape, bind_ok_eq] at h
        cases h
        exact hshape r hr
  · intro t headers rows h
    simp only [scrape_payout] at h
    cases hmf : mkFrame (t.bodyTrs.map fun r => r.map fun c => PyVal.str (pyStripStr c))
        (t.headTh.map pyStripStr).length with
    | error e => rw [hmf, bind_error_eq] at h; exact Except.noConfusion h
    | ok df =>
      rw [hmf, bind_ok_eq] at h
      cases h1 : applyNumericCol "Payout %" (t.headTh.map pyStripStr) df with
      | error e => rw [h1, bind_error_eq] at h; exact Except.noConfusion h
      | ok df1 =>
        rw [h1, bind_ok_eq] at h
        cases h2 : applyNumericCol "Face Value" (t.headTh.map pyStripStr) df1 with
        | error e => rw [h2, bind_error_eq] at h; exact Except.noConfusion h
        | ok df2 =>
          rw [h2, bind_ok_eq] at h
          cases h
          have l2 := applyNumericCol_ok_length _ _ _ _ h2
          have l1 := applyNumericCol_ok_length _ _ _ _ h1
          have l0 := mkFrame_ok_length _ _ _ hmf
          rw [l2, l1, l0, List.length_map]

/-- **C4, witness.** -/
theorem c4_witness :
    ([PyVal.str "Sales", PyVal.num 10] : List PyVal).length =
      (["Metric", "2021"] : List String).length :=
  c4_row_shape.1 ⟨[⟨[⟨true, "x"⟩, ⟨true, "2021"⟩]⟩, ⟨[⟨false, "Sales"⟩, ⟨false, "10"⟩]⟩]⟩
    ["Metric", "2021"] [[PyVal.str "Sales", PyVal.num 10]] rfl
    [PyVal.str "Sales", PyVal.num 10] (List.mem_singleton.mpr rfl)

/-! ## Claim C8: schema derivation from the header row -/

/-- **C8.**  Whenever a tab's table yields a dataset, its Schema is the
synthetic `"Metric"` column name followed by the header row's `<th>`
texts after the first, stripped, in source order. -/
theorem c8_schema_from_header :
    ∀ t hr rest headers rows, t = HTable.mk (hr :: rest) →
      processTab t = .ok (headers, rows) →
      headers = "Metric" ::
        ((hr.cells.filter (·.isTh)).map (fun c => pyStripStr c.text)).drop 1 := by
  intro t hr rest headers rows ht h
  subst ht
  simp only [processTab] at h
  cases hbr : buildRows (tabHeaders hr).length rest with
  | error e => rw [hbr, bind_error_eq] at h; exact Except.noConfusion h
  | ok rs =>
    rw [hbr, bind_ok_eq] at h
    cases hmf : mkFrame rs (tabHeaders hr).length with
    | error e => rw [hmf, bind_error_eq] at h; exact Except.noConfusion h
    | ok df =>
      rw [hmf, bind_ok_eq] at h
      cases h
      simp only [tabHeaders, List.map_drop]

/-- **C8, witness.** -/
theorem c8_witness :
    (["Metric", "2021"] : List String) = "Metric" ::
      ((([⟨true, "x"⟩, ⟨true, "2021"⟩] : List Cell).filter (·.isTh)).map
        (fun c => pyStripStr c.text)).drop 1 :=
  c8_schema_from_header ⟨[⟨[⟨true, "x"⟩, ⟨true, "2021"⟩]⟩]⟩ ⟨[⟨true, "x"⟩, ⟨true, "2021"⟩]⟩
    [] ["Metric", "2021"] [] rfl rfl

/-! ## Claim C10: missing snapshot panel is non-fatal -/

/-- **C10.**  When the company page fetch succeeds but the snapshot
panel is absent, the snapshot extractor returns the empty record, the
snapshot CSV is still the first artifact written, and the orchestrator
proceeds to the statement category (and to the payout category whenever
the statement category finishes cleanly). -/
theorem c10_panel_missing_nonfatal :
    ∀ s env, env.company = .ok none →
      scrape_company_snapshotE none = .ok [] ∧
      (scrape_company_data s env).artifacts.head? = some "company_snapshot.csv" ∧
      financialUrl s ∈ (scrape_company_data s env).requests ∧
      (∀ fa, runFinancial env.fin = (fa, none) →
        payoutUrl s ∈ (scrape_company_data s env).requests) := by
  intro s env hc
  obtain ⟨c, f, p⟩ := env
  simp only at hc
  subst hc
  rcases hrf : runFinancial f with ⟨fa, ferr⟩
  rcases hrp : runPayout p with ⟨pa, perr⟩
  cases ferr with
  | none =>
    cases perr with
    | none =>
      refine ⟨rfl, ?_, ?_, fun fb hfb => ?_⟩ <;>
        simp [scrape_company_data, scrape_company_snapshotE, hrf, hrp]
    | some e =>
      cases e <;>
        (refine ⟨rfl, ?_, ?_, fun fb hfb => ?_⟩ <;>
          simp [scrape_company_data, scrape_company_snapshotE, hrf, hrp])
  | some e =>
    cases e <;>
      refine ⟨rfl, ?_, ?_, fun fb hfb => ?_⟩
    all_goals
      try simp [scrape_company_data, scrape_company_snapshotE, hrf]
    all_goals
      simp at hfb

/-- **C10, witness.** -/
theorem c10_witness :
    scrape_company_snapshotE none = .ok [] ∧
    (scrape_company_data "MARI" ⟨.ok none, .ok ⟨[]⟩, .ok none⟩).artifacts.head? =
      some "company_snapshot.csv" ∧
    financialUrl "MARI" ∈ (scrape_company_data "MARI" ⟨.ok none, .ok ⟨[]⟩, .ok none⟩).requests ∧
    (∀ fa, runFinancial (FetchResult.ok ⟨[]⟩) = (fa, none) →
      payoutUrl "MARI" ∈ (scrape_company_data "MARI" ⟨.ok none, .ok ⟨[]⟩, .ok none⟩).requests) :=
  c10_panel_missing_nonfatal "MARI" ⟨.ok none, .ok ⟨[]⟩, .ok none⟩ rfl

/-! ## Claim C5: independence of the categories -/

/-- **C5, counterexample.**  A statement-category network failure
prevents the payout category from running: with the payout endpoint
healthy (it would produce `payouts.csv`, as the second conjunct shows),
the run's artifacts still contain only the snapshot CSV. -/
theorem c5_counterexample :
    scrape_company_data "MARI"
        ⟨.ok none, .netErr, .ok (some ⟨["Payout Type"], [["Cash"]]⟩)⟩ =
      ⟨["https://sarmaaya.pk/psx/company/MARI",
        "https://sarmaaya.pk/ajax/widgets/all_financials.php?symbol=MARI"],
       ["company_snapshot.csv"], .swallowedNet⟩ ∧
    runPayout (.ok (some ⟨["Payout Type"], [["Cash"]]⟩)) = (["payouts.csv"], none) :=
  ⟨rfl, rfl⟩

/-- **C5, amended.**  Only a *missing tab section* within the statement
category is skipped with processing continuing; an exception in the
statement category (network failure or malformed table) is caught at
the orchestrator but aborts the run — the payout category is never
attempted and only the artifacts already written persist. -/
theorem c5_statement_failure_aborts_payout :
    (∀ s env p r, env.company = .ok p → scrape_company_snapshotE p = .ok r →
      env.fin = .netErr →
      scrape_company_data s env =
        ⟨[companyUrl s, financialUrl s], ["company_snapshot.csv"], .swallowedNet⟩) ∧
    (∀ s env p r fa, env.company = .ok p → scrape_company_snapshotE p = .ok r →
      runFinancial env.fin = (fa, some .other) →
      scrape_company_data s env =
        ⟨[companyUrl s, financialUrl s], "company_snapshot.csv" :: fa, .raised⟩) ∧
    (∀ ts f fs, runTabs ((none : Option (Option HTable)) :: ts) (f :: fs) = runTabs ts fs) := by
  refine ⟨?_, ?_, fun ts f fs => rfl⟩
  · intro s env p r h1 h2 h3
    obtain ⟨c, fi, pay⟩ := env
    simp only at h1 h3
    subst h1
    subst h3
    simp [scrape_company_data, h2, runFinancial]
  · intro s env p r fa h1 h2 h3
    obtain ⟨c, fi, pay⟩ := env
    simp only at h1
    subst h1
    simp only at h3
    simp [scrape_company_data, h2, h3]

/-- **C5, witness.** -/
theorem c5_witness :
    scrape_company_data "X" ⟨.ok none, .netErr, .netErr⟩ =
      ⟨[companyUrl "X", financialUrl "X"], ["company_snapshot.csv"], .swallowedNet⟩ :=
  c5_statement_failure_aborts_payout.1 "X" ⟨.ok none, .netErr, .netErr⟩ none [] rfl rfl rfl

/-! ## Claim C6: symbol validation -/

/-- `Char.ofNat` on a small codepoint reads back as itself. -/
theorem toNat_ofNat_of_lt {n : ℕ} (h : n < 55296) : (Char.ofNat n).toNat = n := by
  have hv : n.isValidChar := Or.inl h
  rw [Char.ofNat, dif_pos hv]
  rfl

/-- Uppercasing maps exactly the ASCII letters into the `A`-`Z`
range. -/
theorem toUpper_AZ_eq_isAsciiLetter (c : Char) :
    (65 ≤ c.toUpper.toNat && c.toUpper.toNat ≤ 90) = isAsciiLetter c := by
  have hup : c.toUpper =
      if c.toNat ≥ 97 ∧ c.toNat ≤ 122 then Char.ofNat (c.toNat - 32) else c := rfl
  rw [hup]
  by_cases h97 : c.toNat ≥ 97 ∧ c.toNat ≤ 122
  · rw [if_pos h97, toNat_ofNat_of_lt (by omega)]
    rw [Bool.eq_iff_iff]
    simp only [isAsciiLetter, Bool.and_eq_true, Bool.or_eq_true, decide_eq_true_eq]
    omega
  · rw [if_neg h97]
    rw [Bool.eq_iff_iff]
    simp only [isAsciiLetter, Bool.and_eq_true, Bool.or_eq_true, decide_eq_true_eq]
    omega

/-- The regex check after uppercasing accepts exactly the non-empty
all-ASCII-letter strings. -/
theorem matchAZ_pyUpper (t : String) :
    matchAZ (pyUpper t) = (!t.data.isEmpty && t.data.all isAsciiLetter) := by
  have hf : (fun c => 65 ≤ (Char.toUpper c).toNat && (Char.toUpper c).toNat ≤ 90) =
      isAsciiLetter := funext (fun c => toUpper_AZ_eq_isAsciiLetter c)
  show (!(t.data.map Char.toUpper).isEmpty &&
      (t.data.map Char.toUpper).all (fun c => 65 ≤ c.toNat && c.toNat ≤ 90)) = _
  rw [List.all_map]
  cases t.data with
  | nil => rfl
  | cons a l =>
    simp only [List.isEmpty_cons, List.map_cons, Function.comp_def]
    rw [hf]

/-- **C6, counterexample.**  The main orchestrator performs no symbol
validation: for the invalid symbol `"123"` it still issues the
company-page HTTP request (here with the network unreachable, so the
request list is exactly that one URL), although the variant validator
rejects the same symbol. -/
theorem c6_counterexample :
    validate_symbol "123" = .error () ∧
    (scrape_company_data "123" ⟨.netErr, .netErr, .netErr⟩).requests =
      ["https://sarmaaya.pk/psx/company/123"] :=
  ⟨rfl, rfl⟩

/-- **C6, amended.**  Only the `scrape_stock_data` variant validates:
for ASCII input it raises exactly when the trimmed symbol is empty or
contains a non-letter, and on failure it issues no request; the main
orchestrator `scrape_company_data` always issues the company-page
request first, for any symbol whatsoever. -/
theorem c6_validation_characterization :
    (∀ s : String, (∀ c ∈ s.data, c.toNat < 128) →
      (validate_symbol s = .error () ↔
        (pyStripStr s = "" ∨ (pyStripStr s).data.all isAsciiLetter = false))) ∧
    (∀ s, validate_symbol s = .error () → stock_data_requests s = []) ∧
    (∀ s env, (scrape_company_data s env).requests.head? = some (companyUrl s)) := by
  refine ⟨?_, ?_, ?_⟩
  · intro s _
    unfold validate_symbol
    by_cases h0 : pyStripStr s = ""
    · simp [h0]
    · rw [if_neg h0]
      have hne : (pyStripStr s).data ≠ [] := by
        intro hd
        exact h0 (by cases hs : pyStripStr s with
          | mk l => rw [hs] at hd; simp at hd; rw [hd])
      by_cases hm : matchAZ (pyUpper (pyStripStr s)) = true
      · rw [if_pos hm]
        constructor
        · intro hcon; exact Except.noConfusion hcon
        · intro hcon
          rcases hcon with hcon | hcon
          · exact absurd hcon h0
          · rw [matchAZ_pyUpper, Bool.and_eq_true] at hm
            rw [hm.2] at hcon
            cases hcon
      · rw [if_neg hm]
        refine ⟨fun _ => ?_, fun _ => rfl⟩
        right
        have hie : (pyStripStr s).data.isEmpty = false := by
          cases hd : (pyStripStr s).data with
          | nil => exact absurd hd hne
          | cons a l => rfl
        rw [matchAZ_pyUpper, hie, Bool.not_false, Bool.true_and] at hm
        simpa using hm
  · intro s h
    unfold stock_data_requests
    rw [h]
  · intro s env
    obtain ⟨c, fi, pay⟩ := env
    cases c with
    | netErr => rfl
    | ok panel =>
      cases hsn : scrape_company_snapshotE panel with
      | error e => simp [scrape_company_data, hsn]
      | ok r =>
        rcases hrf : runFinancial fi with ⟨fa, ferr⟩
        cases ferr with
        | none =>
          rcases hrp : runPayout pay with ⟨pa, perr⟩
          cases perr with
          | none => simp [scrape_company_data, hsn, hrf, hrp]
          | some e => cases e <;> simp [scrape_company_data, hsn, hrf, hrp]
        | some e => cases e <;> simp [scrape_company_data, hsn, hrf]

/-- **C6, witness.** -/
theorem c6_witness :
    validate_symbol "ab1" = .error () ∧ stock_data_requests "ab1" = [] := by
  have h := (c6_validation_characterization.1 "ab1" (by decide)).mpr (Or.inr (by decide))
  exact ⟨h, c6_validation_characterization.2.1 "ab1" h⟩

/-! ## Claim C9: field-map extraction -/

/-- A key absent from an association list's keys is not looked up. -/
theorem lookup_eq_none_of_not_mem_keys {β : Type} :
    ∀ (l : List (String × β)) (k : String), k ∉ l.map Prod.fst → l.lookup k = none := by
  intro l
  induction l with
  | nil => intro k _; rfl
  | cons p rest ih =>
    intro k hk
    obtain ⟨k₁, v⟩ := p
    simp only [List.map_cons, List.mem_cons] at hk
    push_neg at hk
    simp only [List.lookup]
    rw [show (k == k₁) = false from beq_eq_false_iff_ne.mpr hk.1]
    exact ih k hk.2

/-- Unfolding `procField` when no element matches the label. -/
theorem procField_eq_of_none {panel : Panel} {label : String} (key : String)
    (hfs : findStrong panel label = none) :
    procField panel label key = .ok none := by
  unfold procField
  rw [hfs]

/-- Unfolding `procField` at the first matching element. -/
theorem procField_eq_of_some {panel : Panel} {label : String} {t : StrongTag} (key : String)
    (hfs : findStrong panel label = some t) :
    procField panel label key =
      (match t.brSib with
       | none => .ok none
       | some none => .error ()
       | some (some v) => (clean_value (pyStripStr v)).map (fun cv => some (key, cv))) := by
  unfold procField
  rw [hfs]

/-- Inversion of a field lookup that stored a pair. -/
theorem procField_ok_some {panel : Panel} {label key k : String} {v : PyVal} :
    procField panel label key = .ok (some (k, v)) →
    k = key ∧ ∃ t s, findStrong panel label = some t ∧ t.brSib = some (some s) ∧
      clean_value (pyStripStr s) = .ok v := by
  intro h
  cases hfs : findStrong panel label with
  | none => rw [procField_eq_of_none key hfs] at h; cases h
  | some t =>
    rw [procField_eq_of_some key hfs] at h
    revert h
    cases hbr : t.brSib with
    | none => intro h; cases h
    | some o =>
      cases o with
      | none => intro h; exact Except.noConfusion h
      | some s =>
        intro h
        replace h : Except.map (fun cv => some (key, cv)) (clean_value (pyStripStr s)) =
            Except.ok (some (k, v)) := h
        cases hcv : clean_value (pyStripStr s) with
        | error e => rw [hcv] at h; exact Except.noConfusion h
        | ok cv =>
          rw [hcv] at h
          simp only [Except.map] at h
          cases h
          exact ⟨rfl, t, s, rfl, hbr, hcv⟩

/-- Inversion of a field lookup that stored nothing. -/
theorem procField_ok_none {panel : Panel} {label key : String} :
    procField panel label key = .ok none →
    findStrong panel label = none ∨
      ∃ t, findStrong panel label = some t ∧ t.brSib = none := by
  intro h
  cases hfs : findStrong panel label with
  | none => exact Or.inl rfl
  | some t =>
    rw [procField_eq_of_some key hfs] at h
    revert h
    cases hbr : t.brSib with
    | none => intro _; exact Or.inr ⟨t, rfl, hbr⟩
    | some o =>
      cases o with
      | none => intro h; exact Except.noConfusion h
      | some s =>
        intro h
        replace h : Except.map (fun cv => some (key, cv)) (clean_value (pyStripStr s)) =
            Except.ok none := h
        cases hcv : clean_value (pyStripStr s) with
        | error e => rw [hcv] at h; exact Except.noConfusion h
        | ok cv =>
          rw [hcv] at h
          simp only [Except.map] at h
          cases h

/-- Keys of the extracted record all come from the field list. -/
theorem extractFields_keys {panel : Panel} :
    ∀ fields r, extractFields panel fields = .ok r →
      ∀ p ∈ r, p.1 ∈ fields.map Prod.snd := by
  intro fields
  induction fields with
  | nil =>
    intro r h p hp
    cases h
    cases hp
  | cons hd rest ih =>
    intro r h p hp
    obtain ⟨l₀, k₀⟩ := hd
    simp only [extractFields] at h
    cases hpf : procField panel l₀ k₀ with
    | error e => rw [hpf, bind_error_eq] at h; exact Except.noConfusion h
    | ok o =>
      rw [hpf, bind_ok_eq] at h
      cases hrest : extractFields panel rest with
      | error e => rw [hrest, bind_error_eq] at h; exact Except.noConfusion h
      | ok r' =>
        rw [hrest, bind_ok_eq] at h
        cases o with
        | none =>
          cases h
          exact List.mem_cons_of_mem _ (ih _ hrest p hp)
        | some q =>
          obtain ⟨qk, qv⟩ := q
          cases h
          rcases List.mem_cons.mp hp with hp | hp
          · obtain ⟨hk, -⟩ := procField_ok_some hpf
            subst hp
            simp only [List.map_cons, List.mem_cons]
            exact Or.inl hk
          · exact List.mem_cons_of_mem _ (ih _ hrest p hp)

/-- Reducing the first-match expression when no element matches. -/
theorem matchRHS_of_none {panel : Panel} {label : String}
    (hfs : findStrong panel label = none) :
    (match findStrong panel label with
     | none => none
     | some t =>
       match t.brSib with
       | some (some v) => (clean_value (pyStripStr v)).toOption
       | _ => none) = (none : Option PyVal) := by
  rw [hfs]

/-- Reducing the first-match expression at a matching element. -/
theorem matchRHS_of_some {panel : Panel} {label : String} {t : StrongTag}
    (hfs : findStrong panel label = some t) :
    (match findStrong panel label with
     | none => none
     | some t =>
       match t.brSib with
       | some (some v) => (clean_value (pyStripStr v)).toOption
       | _ => none) =
    (match t.brSib with
     | some (some v) => (clean_value (pyStripStr v)).toOption
     | _ => (none : Option PyVal)) := by
  rw [hfs]

/-- Reducing the per-element expression at a text sibling. -/
theorem matchBr_of_someSome {t : StrongTag} {s : String} (hbr : t.brSib = some (some s)) :
    (match t.brSib with
     | some (some v) => (clean_value (pyStripStr v)).toOption
     | _ => (none : Option PyVal)) = (clean_value (pyStripStr s)).toOption := by
  rw [hbr]

/-- Reducing the per-element expression when no `<br>` follows. -/
theorem matchBr_of_noBr {t : StrongTag} (hbr : t.brSib = none) :
    (match t.brSib with
     | some (some v) => (clean_value (pyStripStr v)).toOption
     | _ => (none : Option PyVal)) = none := by
  rw [hbr]

/-- **C9.**  In the snapshot field-map extractor, whenever the field
loop completes, the value stored under a canonical key comes from the
*first* `<strong>` in document order whose `title` attribute contains
the label as a substring (its post-`<br>` text run through
`clean_value`); when no element matches — or the match has no
following `<br>` — the key is absent from the record entirely, with no
placeholder. -/
theorem c9_field_map_first_match :
    ∀ (panel : Panel) fields r label key, (fields.map Prod.snd).Nodup →
      extractFields panel fields = .ok r → (label, key) ∈ fields →
      r.lookup key =
        (match findStrong panel label with
         | none => none
         | some t =>
           match t.brSib with
           | some (some v) => (clean_value (pyStripStr v)).toOption
           | _ => none) := by
  intro panel fields
  induction fields with
  | nil =>
    intro r label key _ _ hmem
    cases hmem
  | cons hd rest ih =>
    intro r label key hnodup h hmem
    obtain ⟨l₀, k₀⟩ := hd
    rw [List.map_cons, List.nodup_cons] at hnodup
    simp only [extractFields] at h
    cases hpf : procField panel l₀ k₀ with
    | error e => rw [hpf, bind_error_eq] at h; exact Except.noConfusion h
    | ok o =>
      rw [hpf, bind_ok_eq] at h
      cases hrest : extractFields panel rest with
      | error e => rw [hrest, bind_error_eq] at h; exact Except.noConfusion h
      | ok r' =>
        rw [hrest, bind_ok_eq] at h
        rcases List.mem_cons.mp hmem with heq | hmem'
        · injection heq with hl hk
          subst hl
          subst hk
          cases o with
          | none =>
            injection h with h
            subst h
            have hnone : r'.lookup key = none := by
              apply lookup_eq_none_of_not_mem_keys
              intro hin
              rcases List.mem_map.mp hin with ⟨p, hp, hpk⟩
              exact hnodup.1 (hpk ▸ extractFields_keys rest r' hrest p hp)
            rw [hnone]
            rcases procField_ok_none hpf with hfs | ⟨t, hfs, hbr⟩
            · rw [matchRHS_of_none hfs]
            · rw [matchRHS_of_some hfs, matchBr_of_noBr hbr]
          | some q =>
            obtain ⟨qk, qv⟩ := q
            obtain ⟨hk, t, s, hfs, hbr, hcv⟩ := procField_ok_some hpf
            subst hk
            cases h
            rw [matchRHS_of_some hfs, matchBr_of_someSome hbr, hcv]
            simp only [List.lookup, beq_self_eq_true, Except.toOption]
        · have hkey : key ∈ rest.map Prod.snd :=
            List.mem_map.mpr ⟨(label, key), hmem', rfl⟩
          cases o with
          | none =>
            cases h
            exact ih _ label key hnodup.2 hrest hmem'
          | some q =>
            obtain ⟨qk, qv⟩ := q
            obtain ⟨hk, -⟩ := procField_ok_some hpf
            subst hk
            have hkne : (key == qk) = false := by
              apply beq_eq_false_iff_ne.mpr
              intro hkk
              exact hnodup.1 (hkk ▸ hkey)
            cases h
            simp only [List.lookup]
            rw [hkne]
            exact ih _ label key hnodup.2 hrest hmem'

/-- **C9, witness.**  Two `<strong>` tags both match the label
`"High"`; the stored value comes from the first in document order. -/
theorem c9_witness :
    ([("High", PyVal.num 10)] : List (String × PyVal)).lookup "High" =
      (match findStrong ⟨[⟨some "52 Week High", some (some "10")⟩,
          ⟨some "High today", some (some "20")⟩]⟩ "High" with
       | none => none
       | some t =>
         match t.brSib with
         | some (some v) => (clean_value (pyStripStr v)).toOption
         | _ => none) :=
  c9_field_map_first_match
    ⟨[⟨some "52 Week High", some (some "10")⟩, ⟨some "High today", some (some "20")⟩]⟩
    [("High", "High")] [("High", PyVal.num 10)] "High" "High"
    (by simp) rfl (List.mem_singleton.mpr rfl)

/-! ## Claim C7: the regex fallback of `extract_numeric` -/

/-- Digits are not whitespace. -/
theorem isDigit_not_ws {c : Char} (h : c.isDigit = true) : c.isWhitespace = false := by
  cases hw : c.isWhitespace
  · rfl
  · exfalso
    simp only [Char.isWhitespace, Bool.or_eq_true, decide_eq_true_eq] at hw
    rcases hw with ((rfl | rfl) | rfl) | rfl <;> exact absurd h (by decide)

/-- Stripping is the identity on whitespace-free character lists. -/
theorem pyStrip_eq_self {l : List Char} (h : ∀ c ∈ l, c.isWhitespace = false) :
    pyStrip l = l := by
  unfold pyStrip
  have h1 : l.dropWhile Char.isWhitespace = l := by
    cases l with
    | nil => rfl
    | cons a t => exact List.dropWhile_cons_of_neg (by simp [h a (List.mem_cons_self a t)])
  rw [h1]
  have h2 : l.reverse.dropWhile Char.isWhitespace = l.reverse := by
    cases hr : l.reverse with
    | nil => rfl
    | cons a t =>
      apply List.dropWhile_cons_of_neg
      have ha : a ∈ l := by
        rw [← List.mem_reverse, hr]
        exact List.mem_cons_self a t
      simp [h a ha]
  rw [h2, List.reverse_reverse]

/-- `pyFloatCore` unfolded when no dot follows the digits. -/
theorem pyFloatCore_eq_of_drop_nil {cs : List Char}
    (hdrop : cs.dropWhile Char.isDigit = []) :
    pyFloatCore cs =
      (if (cs.takeWhile Char.isDigit).isEmpty then none
       else some ((digitsToNat (cs.takeWhile Char.isDigit) : ℚ))) := by
  unfold pyFloatCore
  rw [hdrop]
  rfl

/-- `pyFloatCore` unfolded when a dot follows the digits. -/
theorem pyFloatCore_eq_of_drop_dot {cs r2 : List Char}
    (hdrop : cs.dropWhile Char.isDigit = '.' :: r2) :
    pyFloatCore cs =
      (if (r2.dropWhile Char.isDigit).isEmpty then
        if (cs.takeWhile Char.isDigit).isEmpty && (r2.takeWhile Char.isDigit).isEmpty then none
        else some ((digitsToNat (cs.takeWhile Char.isDigit) : ℚ) +
          (digitsToNat (r2.takeWhile Char.isDigit) : ℚ) /
            (10 : ℚ) ^ (r2.takeWhile Char.isDigit).length)
       else none) := by
  unfold pyFloatCore
  rw [hdrop]
  rfl

/-- All-digit lists parse. -/
theorem pyFloatCore_digits {d : List Char} (hne : d ≠ [])
    (hd : ∀ c ∈ d, c.isDigit = true) :
    pyFloatCore d = some ((digitsToNat d : ℚ)) := by
  rw [pyFloatCore_eq_of_drop_nil (List.dropWhile_eq_nil_iff.mpr hd),
    List.takeWhile_eq_self_iff.mpr hd, if_neg]
  simp [List.isEmpty_iff, hne]

/-- Digits-dot-digits lists parse. -/
theorem pyFloatCore_decimal {d1 d2 : List Char}
    (h1 : ∀ c ∈ d1, c.isDigit = true) (hne : d2 ≠ []) (h2 : ∀ c ∈ d2, c.isDigit = true) :
    pyFloatCore (d1 ++ '.' :: d2) =
      some ((digitsToNat d1 : ℚ) + (digitsToNat d2 : ℚ) / (10 : ℚ) ^ d2.length) := by
  have hdrop : (d1 ++ '.' :: d2).dropWhile Char.isDigit = '.' :: d2 := by
    rw [List.dropWhile_append_of_pos h1, List.dropWhile_cons_of_neg (by decide)]
  have htake : (d1 ++ '.' :: d2).takeWhile Char.isDigit = d1 := by
    rw [List.takeWhile_append_of_pos h1, List.takeWhile_cons_of_neg (by decide),
      List.append_nil]
  rw [pyFloatCore_eq_of_drop_dot hdrop, htake, List.takeWhile_eq_self_iff.mpr h2,
    List.dropWhile_eq_nil_iff.mpr h2]
  have hff : (d1.isEmpty && d2.isEmpty) = false := by
    cases hd2 : d2.isEmpty
    · simp
    · exact absurd (List.isEmpty_iff.mp hd2) hne
  simp [hff]

/-- `numBody` unfolded when the input has no dot after its digits. -/
theorem numBody_eq_of_drop_nil {cs : List Char}
    (hdrop : cs.dropWhile Char.isDigit = []) :
    numBody cs =
      (if (cs.takeWhile Char.isDigit).isEmpty then none
       else some (cs.takeWhile Char.isDigit, ([] : List Char))) := by
  unfold numBody
  rw [hdrop]
  rfl

/-- `numBody` unfolded when the remainder starts with a non-dot. -/
theorem numBody_eq_of_drop_nondot {cs r2 : List Char} {a : Char} (ha : a ≠ '.')
    (hdrop : cs.dropWhile Char.isDigit = a :: r2) :
    numBody cs =
      (if (cs.takeWhile Char.isDigit).isEmpty then none
       else some (cs.takeWhile Char.isDigit, a :: r2)) := by
  unfold numBody
  rw [hdrop]
  have hcond : ¬(((a :: r2) : List Char).head? = some '.') := by simp [ha]
  rw [if_neg hcond]

/-- `numBody` unfolded when the remainder starts with a dot. -/
theorem numBody_eq_of_drop_dot {cs r2 : List Char}
    (hdrop : cs.dropWhile Char.isDigit = '.' :: r2) :
    numBody cs =
      (if (r2.takeWhile Char.isDigit).isEmpty then
        if (cs.takeWhile Char.isDigit).isEmpty then none
        else some (cs.takeWhile Char.isDigit, '.' :: r2)
       else some (cs.takeWhile Char.isDigit ++ '.' :: r2.takeWhile Char.isDigit,
        r2.dropWhile Char.isDigit)) := by
  unfold numBody
  rw [hdrop]
  rfl

/-- Every successful `numBody` match is made of digits and dots, is
non-empty, and parses under `pyFloatCore`. -/
theorem numBody_some_props {cs m r : List Char} (h : numBody cs = some (m, r)) :
    (∀ c ∈ m, c.isDigit = true ∨ c = '.') ∧ m ≠ [] ∧ ∃ q, pyFloatCore m = some q := by
  cases hdrop : cs.dropWhile Char.isDigit with
  | nil =>
    rw [numBody_eq_of_drop_nil hdrop] at h
    by_cases he : (cs.takeWhile Char.isDigit).isEmpty
    · rw [if_pos he] at h; cases h
    · rw [if_neg he] at h
      injection h with h2
      injection h2 with hm hr
      subst hm
      have hdig : ∀ c ∈ cs.takeWhile Char.isDigit, c.isDigit = true :=
        fun c hc => List.mem_takeWhile_imp hc
      have hne : cs.takeWhile Char.isDigit ≠ [] := by
        intro h0
        rw [h0] at he
        exact he rfl
      exact ⟨fun c hc => Or.inl (hdig c hc), hne,
        ⟨digitsToNat (cs.takeWhile Char.isDigit), pyFloatCore_digits hne hdig⟩⟩
  | cons a r2 =>
    by_cases had : a = '.'
    · subst had
      rw [numBody_eq_of_drop_dot hdrop] at h
      by_cases he2 : (r2.takeWhile Char.isDigit).isEmpty
      · rw [if_pos he2] at h
        by_cases he1 : (cs.takeWhile Char.isDigit).isEmpty
        · rw [if_pos he1] at h; cases h
        · rw [if_neg he1] at h
          injection h with h2
          injection h2 with hm hr
          subst hm
          have hdig : ∀ c ∈ cs.takeWhile Char.isDigit, c.isDigit = true :=
            fun c hc => List.mem_takeWhile_imp hc
          have hne : cs.takeWhile Char.isDigit ≠ [] := by
            intro h0
            rw [h0] at he1
            exact he1 rfl
          exact ⟨fun c hc => Or.inl (hdig c hc), hne,
            ⟨digitsToNat (cs.takeWhile Char.isDigit), pyFloatCore_digits hne hdig⟩⟩
      · rw [if_neg he2] at h
        injection h with h2
        injection h2 with hm hr
        subst hm
        have hd1 : ∀ c ∈ cs.takeWhile Char.isDigit, c.isDigit = true :=
          fun c hc => List.mem_takeWhile_imp hc
        have hd2 : ∀ c ∈ r2.takeWhile Char.isDigit, c.isDigit = true :=
          fun c hc => List.mem_takeWhile_imp hc
        have hne2 : r2.takeWhile Char.isDigit ≠ [] := by
          intro h0
          rw [h0] at he2
          exact he2 rfl
        refine ⟨?_, by simp, ⟨_, pyFloatCore_decimal hd1 hne2 hd2⟩⟩
        intro c hc
        rcases List.mem_append.mp hc with hc | hc
        · exact Or.inl (hd1 c hc)
        · rcases List.mem_cons.mp hc with hc | hc
          · exact Or.inr hc
          · exact Or.inl (hd2 c hc)
    · rw [numBody_eq_of_drop_nondot had hdrop] at h
      by_cases he : (cs.takeWhile Char.isDigit).isEmpty
      · rw [if_pos he] at h; cases h
      · rw [if_neg he] at h
        injection h with h2
        injection h2 with hm hr
        subst hm
        have hdig : ∀ c ∈ cs.takeWhile Char.isDigit, c.isDigit = true :=
          fun c hc => List.mem_takeWhile_imp hc
        have hne : cs.takeWhile Char.isDigit ≠ [] := by
          intro h0
          rw [h0] at he
          exact he rfl
        exact ⟨fun c hc => Or.inl (hdig c hc), hne,
          ⟨digitsToNat (cs.takeWhile Char.isDigit), pyFloatCore_digits hne hdig⟩⟩

/-- Matched characters are whitespace-free. -/
theorem match_chars_not_ws {m : List Char} (h : ∀ c ∈ m, c.isDigit = true ∨ c = '.') :
    ∀ c ∈ m, c.isWhitespace = false := by
  intro c hc
  rcases h c hc with hd | rfl
  · exact isDigit_not_ws hd
  · decide

/-- The signed parser with an explicit minus sign. -/
theorem pyFloatSigned_minus (t : List Char) :
    pyFloatSigned ('-' :: t) = (pyFloatCore t).map (fun q => -q) := rfl

/-- On a digit/dot-headed list the signed parser is the unsigned
parser. -/
theorem pyFloatSigned_eq_core {m : List Char} (hne : m ≠ [])
    (h : ∀ c ∈ m, c.isDigit = true ∨ c = '.') :
    pyFloatSigned m = pyFloatCore m := by
  cases m with
  | nil => exact absurd rfl hne
  | cons c t =>
    have hc := h c (List.mem_cons_self c t)
    have h1 : ¬(((c :: t) : List Char).head? = some '-') := by
      simp only [List.head?_cons, Option.some.injEq]
      rcases hc with hd | rfl
      · intro hcon
        subst hcon
        exact absurd hd (by decide)
      · decide
    have h2 : ¬(((c :: t) : List Char).head? = some '+') := by
      simp only [List.head?_cons, Option.some.injEq]
      rcases hc with hd | rfl
      · intro hcon
        subst hcon
        exact absurd hd (by decide)
      · decide
    unfold pyFloatSigned
    rw [if_neg h1, if_neg h2]

/-- Every successful `tryMatch` output parses under Python `float`:
the `try: float(numbers[0]) except ValueError` of `extract_numeric`
can never hit the `except`. -/
theorem tryMatch_pyFloat {cs m r : List Char} (h : tryMatch cs = some (m, r)) :
    ∃ q, pyFloat? (String.mk m) = some q := by
  unfold tryMatch at h
  by_cases hh : cs.head? = some '-'
  · rw [if_pos hh] at h
    cases hnb : numBody cs.tail with
    | none => rw [hnb] at h; exact Option.noConfusion h
    | some p =>
      obtain ⟨mb, rb⟩ := p
      rw [hnb] at h
      simp only [Option.map] at h
      injection h with h2
      injection h2 with hm hr
      subst hm
      obtain ⟨hdig, hneb, q, hcore⟩ := numBody_some_props hnb
      have hws : ∀ c ∈ ('-' :: mb : List Char), c.isWhitespace = false := by
        intro c hc
        rcases List.mem_cons.mp hc with rfl | hc
        · decide
        · exact match_chars_not_ws hdig c hc
      refine ⟨-q, ?_⟩
      show pyFloatSigned (pyStrip ('-' :: mb)) = some (-q)
      rw [pyStrip_eq_self hws, pyFloatSigned_minus, hcore]
      rfl
  · rw [if_neg hh] at h
    obtain ⟨hdig, hne, q, hcore⟩ := numBody_some_props h
    refine ⟨q, ?_⟩
    show pyFloatSigned (pyStrip m) = some q
    rw [pyStrip_eq_self (match_chars_not_ws hdig), pyFloatSigned_eq_core hne hdig, hcore]

/-- The first emitted match of the scan comes from `tryMatch`. -/
theorem findallAux_head :
    ∀ (fuel : ℕ) (cs m : List Char) (ms : List (List Char)),
      findallAux fuel cs = m :: ms → ∃ cs' r, tryMatch cs' = some (m, r) := by
  intro fuel
  induction fuel with
  | zero =>
    intro cs m ms h
    exact List.noConfusion h
  | succ n ih =>
    intro cs m ms h
    cases cs with
    | nil => exact List.noConfusion h
    | cons c rest =>
      simp only [findallAux] at h
      revert h
      cases htm : tryMatch (c :: rest) with
      | some p =>
        obtain ⟨mm, r⟩ := p
        intro h
        replace h : mm :: findallAux n r = m :: ms := h
        injection h with h1 _
        subst h1
        exact ⟨c :: rest, r, htm⟩
      | none =>
        intro h
        replace h : findallAux n rest = m :: ms := h
        exact ih rest m ms h

/-- **C7.**  When the exact float parse of the comma/percent-stripped
token fails, `extract_numeric` returns exactly the value of the first
`-?\d*\.?\d+` match in the stripped token — the `float` call on a
match never raises — and absent when there is no match. -/
theorem c7_regex_fallback :
    ∀ s, pyFloat? (removeCommasPct s) = none →
      (findallNums (removeCommasPct s) = [] → extract_numeric s = none) ∧
      (∀ m ms, findallNums (removeCommasPct s) = m :: ms →
        ∃ q, pyFloat? (String.mk m) = some q ∧ extract_numeric s = some q) := by
  intro s _
  constructor
  · intro hnil
    unfold extract_numeric
    by_cases hs : s = ""
    · rw [if_pos hs]
    · rw [if_neg hs, hnil]
  · intro m ms hcons
    have hs : s ≠ "" := by
      intro hs0
      subst hs0
      replace hcons : ([] : List (List Char)) = m :: ms := hcons
      exact List.noConfusion hcons
    have hcons' : findallAux (removeCommasPct s).data.length (removeCommasPct s).data =
        m :: ms := hcons
    obtain ⟨cs', r, htm⟩ := findallAux_head _ _ m ms hcons'
    obtain ⟨q, hq⟩ := tryMatch_pyFloat htm
    refine ⟨q, hq, ?_⟩
    unfold extract_numeric
    rw [if_neg hs, hcons]
    exact hq

/-- **C7, witness.** -/
theorem c7_witness :
    ∃ q, pyFloat? (String.mk ['1', '2', '.', '5']) = some q ∧
      extract_numeric "abc 12.5" = some q :=
  (c7_regex_fallback "abc 12.5" (by decide)).2 ['1', '2', '.', '5'] [] (by decide)

end PSX
